import Mathlib

/-!
Verification of the CO2 emissions dashboard pipeline
(src/co2_emissions_dashboard.py) against its specification.

The pipeline is shallowly embedded:

* a pandas cell of the raw `co2_emissions` column is a `Cell`
  (a numeric value, a non-parseable string, or NaN, written `missing`);
* floating point numbers are modelled as exact rationals `ℚ`; NaN is
  modelled as `Option.none` wherever a column is numeric;
* a source table is a `Table`: a list of rows plus presence flags for
  the columns that a source may fail to supply (`co2_emissions`,
  `co2_per_capita`, `country_code`); the spec (section 6) guarantees a
  `country` and `year` column in every source, so those are plain fields;
* raising an exception is modelled by `Except.error` / `Option.none`;
* line 107 unpacks `stats.linregress(X.flatten(), y)[3:5]` as
  `_, p_value`: of the result `(slope, intercept, rvalue, pvalue, stderr)`
  the slice holds `(pvalue, stderr)`, so the name `p_value` receives the
  STANDARD ERROR of the slope (index 4) while the true two-sided p-value
  (index 3) is discarded into `_`. The code therefore gates on and reports
  the standard error. That float square-root quantity is carried as an
  explicit function parameter `sErr` of the detector, while the regression
  slope (used by every comparison and by the ranking) is computed exactly.

pandas behaviours that the theorems depend on, encoded below:

* `Series.max()` skips NaN; on an object column holding any string it
  either fails to compare mixed values or produces a string that the
  subsequent `< 1e3` comparison cannot handle, raising `TypeError`;
* `pd.to_numeric(errors='coerce')` maps non-parseable cells to NaN;
* `groupby` with `dropna=True` (the default) drops every row whose
  group key contains NaN, and sorts the group keys;
* `rolling(5, min_periods=3).mean()` takes the trailing window of the
  last five rows and yields a value iff the window holds at least three
  non-NaN values, averaging exactly those;
* `sort_values` on several columns uses `np.lexsort`, a stable
  ascending sort; `sort_values(col, ascending=False)` computes a stable
  ascending argsort (numpy insertion sort at the sizes arising here)
  and reverses it, so ties surface in reversed original order;
* `sort_values` on an empty frame built from `pd.DataFrame([])` raises
  `KeyError` since the frame has no columns;
* `sklearn.LinearRegression.fit` raises on NaN in the response and
  `scipy.stats.linregress` raises when all predictor values coincide.
-/

/-- Generic helper: first-occurrence deduplication, the order that
`pandas.Series.unique()` produces. -/
def uniqueFirstAux {α : Type} [DecidableEq α] (seen : List α) : List α → List α
  | [] => []
  | a :: l => if a ∈ seen then uniqueFirstAux seen l else a :: uniqueFirstAux (a :: seen) l

/-- Distinct values of a list in order of first appearance (`Series.unique`). -/
def uniqueFirst {α : Type} [DecidableEq α] : List α → List α := uniqueFirstAux []

/-- Mean of the non-missing values of a column, `none` when every value is
missing: the `mean` aggregation of pandas with its default `skipna`. -/
def meanOpt (l : List (Option ℚ)) : Option ℚ :=
  let vs := l.filterMap id
  if vs.length = 0 then none else some (vs.sum / (vs.length : ℚ))

/-- Raw cell of the `co2_emissions` column before cleaning. `strv` stands for
a string that `pd.to_numeric(errors='coerce')` cannot parse (a parseable
numeric string is already represented as `num`); `missing` is NaN. -/
inductive Cell where
  | num (q : ℚ)
  | strv (s : String)
  | missing
deriving DecidableEq, Repr

/-- Numeric reading of a cell; NaN and strings read as `none`. -/
def cellVal : Cell → Option ℚ
  | .num q => some q
  | _ => none

/-- Line 72, `pd.to_numeric(df['co2_emissions'], errors='coerce')` on one
cell: numbers survive, non-parseable strings and NaN become NaN. -/
def toNumericCell : Cell → Cell
  | .num q => .num q
  | _ => .missing

/-- Row of a source table after the rename map of `_standardize_format`
(lines 52-60) has produced the canonical column names. `country` and `year`
are always supplied (spec section 6); a missing `country` cell is `none`. -/
structure SrcRow where
  country : Option String
  country_code : Option String
  year : ℤ
  co2_emissions : Cell
  co2_per_capita : Option ℚ
deriving DecidableEq, Repr

/-- Table shape shared by a standardized source and by the concatenation of
all sources: the rows plus presence flags for the three optional columns.
When a flag is false the corresponding field of each row is meaningless and
any pandas access to the column raises `KeyError`. -/
structure Table where
  hasCo2 : Bool
  hasPerCap : Bool
  hasCode : Bool
  rows : List SrcRow
deriving DecidableEq, Repr

/-- List of the string cells of the raw emissions column. -/
def stringCells (col : List Cell) : List String :=
  col.filterMap (fun c => match c with | .strv s => some s | _ => none)

/-- List of the numeric cells of the raw emissions column. -/
def numCells (col : List Cell) : List ℚ :=
  col.filterMap (fun c => match c with | .num q => some q | _ => none)

/-- Line 63, `df['co2_emissions'].max()` followed by the `< 1e3` comparison:
with any string in the column pandas either cannot compare the mixed values
or hands a string maximum to `<`, raising `TypeError` (`error`); otherwise
NaNs are skipped and the maximum of the numeric cells is returned (`none`
standing for the NaN maximum of an all-missing column). -/
def colMax (col : List Cell) : Except Unit (Option ℚ) :=
  if stringCells col = [] then .ok (numCells col).max? else .error ()

/-- Multiplication of one cell by the rescale factor (`*= 1e6` / `*= 1e3`);
NaN stays NaN. -/
def scaleCell (f : ℚ) : Cell → Cell
  | .num q => .num (q * f)
  | c => c

/-- Multiplication of the whole emissions column of a source by `f`. -/
def scaleTable (f : ℚ) (t : Table) : Table :=
  { t with rows := t.rows.map (fun r => { r with co2_emissions := scaleCell f r.co2_emissions }) }

/-- Lines 50-68, `_standardize_format` after the rename map: the
magnitude-based unit heuristic applied to one source, before concatenation.
A NaN maximum compares false against both thresholds, leaving the source
unchanged. -/
def _standardize_format (t : Table) : Except Unit Table :=
  if t.hasCo2 then
    match colMax (t.rows.map (fun r => r.co2_emissions)) with
    | .error e => .error e
    | .ok (some m) =>
      if m < 1000 then .ok (scaleTable 1000000 t)
      else if m < 1000000 then .ok (scaleTable 1000 t)
      else .ok t
    | .ok none => .ok t
  else .ok t

/-- Group key of the aggregation: the `(country, year, country_code)`
triple. -/
abbrev Key := String × ℤ × String

/-- Row of the Combined Dataset produced by `_clean_combined_data`. -/
structure GRow where
  country : String
  year : ℤ
  country_code : String
  co2_emissions : Option ℚ
  co2_per_capita : Option ℚ
  co2_ma_5yr : Option ℚ
deriving DecidableEq, Repr

/-- Key of a combined row. -/
def keyOfG (r : GRow) : Key := (r.country, r.year, r.country_code)

/-- Group key of a cleaned source row. pandas `groupby` with its default
`dropna=True` drops every row whose key contains NaN, hence `none` when the
`country_code` (or `country`) cell is missing. -/
def rowKey (r : SrcRow) : Option Key :=
  match r.country, r.country_code with
  | some c, some k => some (c, r.year, k)
  | _, _ => none

/-- Lines 72-75: numeric coercion of `co2_emissions`, then the two row
filters (non-missing `country`, `year >= 1970`). -/
def survivors (t : Table) : List SrcRow :=
  ((t.rows.map (fun r => { r with co2_emissions := toNumericCell r.co2_emissions })).filter
      (fun r => r.country.isSome)).filter (fun r => 1970 ≤ r.year)

/-- Lexicographic order on group keys, the order in which pandas `groupby`
(`sort=True`, the default) emits the groups. -/
def keyLe (a b : Key) : Prop :=
  a.1 < b.1 ∨ (a.1 = b.1 ∧ (a.2.1 < b.2.1 ∨ (a.2.1 = b.2.1 ∧ a.2.2 ≤ b.2.2)))

instance : DecidableRel keyLe := fun a b => by unfold keyLe; infer_instance

instance : IsTrans Key keyLe := by
  constructor
  rintro ⟨a1, a2, a3⟩ ⟨b1, b2, b3⟩ ⟨c1, c2, c3⟩ hab hbc
  rcases hab with h1 | ⟨rfl, h2⟩
  · rcases hbc with h1' | ⟨rfl, _⟩
    · exact Or.inl (lt_trans h1 h1')
    · exact Or.inl h1
  · rcases hbc with h1' | ⟨rfl, h2'⟩
    · exact Or.inl h1'
    · refine Or.inr ⟨rfl, ?_⟩
      rcases h2 with h2 | ⟨rfl, h3⟩
      · rcases h2' with h2' | ⟨rfl, _⟩
        · exact Or.inl (lt_trans h2 h2')
        · exact Or.inl h2
      · rcases h2' with h2' | ⟨rfl, h3'⟩
        · exact Or.inl h2'
        · exact Or.inr ⟨rfl, le_trans h3 h3'⟩

instance : IsTotal Key keyLe := by
  constructor
  rintro ⟨a1, a2, a3⟩ ⟨b1, b2, b3⟩
  rcases lt_trichotomy a1 b1 with h1 | rfl | h1
  · exact Or.inl (Or.inl h1)
  · rcases lt_trichotomy a2 b2 with h2 | rfl | h2
    · exact Or.inl (Or.inr ⟨rfl, Or.inl h2⟩)
    · rcases le_total a3 b3 with h3 | h3
      · exact Or.inl (Or.inr ⟨rfl, Or.inr ⟨rfl, h3⟩⟩)
      · exact Or.inr (Or.inr ⟨rfl, Or.inr ⟨rfl, h3⟩⟩)
    · exact Or.inr (Or.inr ⟨rfl, Or.inl h2⟩)
  · exact Or.inr (Or.inl h1)

/-- Order used by line 82, `sort_values(['country', 'year'])`: ascending in
`(country, year)` (stable: pandas multi-column sorts use `np.lexsort`). -/
def cyLe (a b : GRow) : Prop :=
  a.country < b.country ∨ (a.country = b.country ∧ a.year ≤ b.year)

instance : DecidableRel cyLe := fun a b => by unfold cyLe; infer_instance

instance : IsTrans GRow cyLe := by
  constructor
  intro a b c hab hbc
  rcases hab with h1 | ⟨e1, h2⟩
  · rcases hbc with h1' | ⟨e1', _⟩
    · exact Or.inl (lt_trans h1 h1')
    · exact Or.inl (e1' ▸ h1)
  · rcases hbc with h1' | ⟨e1', h2'⟩
    · exact Or.inl (e1 ▸ h1')
    · exact Or.inr ⟨e1.trans e1', le_trans h2 h2'⟩

instance : IsTotal GRow cyLe := by
  constructor
  intro a b
  rcases lt_trichotomy a.country b.country with h1 | h1 | h1
  · exact Or.inl (Or.inl h1)
  · rcases le_total a.year b.year with h2 | h2
    · exact Or.inl (Or.inr ⟨h1, h2⟩)
    · exact Or.inr (Or.inr ⟨h1.symm, h2⟩)
  · exact Or.inr (Or.inl h1)

/-- Row of the aggregation (lines 77-80) for one group key: the means of
`co2_emissions` and `co2_per_capita` over the rows that collapse to the key,
NaN excluded from each mean. -/
def mkGroupRow (rows : List SrcRow) (k : Key) : GRow :=
  { country := k.1, year := k.2.1, country_code := k.2.2,
    co2_emissions :=
      meanOpt ((rows.filter (fun s => rowKey s = some k)).map (fun s => cellVal s.co2_emissions)),
    co2_per_capita :=
      meanOpt ((rows.filter (fun s => rowKey s = some k)).map (fun s => s.co2_per_capita)),
    co2_ma_5yr := none }

/-- Lines 77-80: `groupby(['country', 'year', 'country_code'],
as_index=False).agg(mean)`. Keyless rows (NaN in the key) are dropped, the
groups come out sorted by key. -/
def buildGroups (rows : List SrcRow) : List GRow :=
  (List.insertionSort keyLe (uniqueFirst (rows.filterMap rowKey))).map (mkGroupRow rows)

/-- Line 82: stable ascending sort of the grouped table by
`(country, year)`. -/
def sortCY (l : List GRow) : List GRow := List.insertionSort cyLe l

/-- Value of `rolling(5, min_periods=3).mean()` at the row whose trailing
history of emissions values (this row included) is `h`: take the window of
the last five rows and average its non-NaN values, provided there are at
least three of them. -/
def maOfHist (h : List (Option ℚ)) : Option ℚ :=
  let w := h.drop (h.length - 5)
  let vs := w.filterMap id
  if vs.length < 3 then none else some (vs.sum / (vs.length : ℚ))

/-- Worker of the rolling-mean transform: walks the rows, keeping for each
country the emissions values seen so far, the way
`groupby('country')['co2_emissions'].transform(rolling)` assigns a value to
every row position. -/
def addMAGo (hist : String → List (Option ℚ)) : List GRow → List GRow
  | [] => []
  | r :: rs =>
    { r with co2_ma_5yr := maOfHist (hist r.country ++ [r.co2_emissions]) } ::
      addMAGo (fun c => if c = r.country then hist r.country ++ [r.co2_emissions] else hist c) rs

/-- Lines 83-85: the per-country trailing 5-row rolling mean column. -/
def addMA (l : List GRow) : List GRow := addMAGo (fun _ => []) l

/-- Rolling mean of a per-country emissions sequence continuing the already
seen history `pre`: specification-side view of lines 83-85. -/
def rollingMAFrom (pre : List (Option ℚ)) : List (Option ℚ) → List (Option ℚ)
  | [] => []
  | v :: vs => maOfHist (pre ++ [v]) :: rollingMAFrom (pre ++ [v]) vs

/-- Trailing rolling mean over windows of five rows requiring three
non-missing values, from an empty history. -/
def rollingMA : List (Option ℚ) → List (Option ℚ) := rollingMAFrom []

/-- Lines 70-87, `_clean_combined_data` on the concatenated table: coercion,
filters, group-by-mean, sort, rolling mean. Accessing the `co2_emissions`
column (line 72), the `country_code` group key or the `co2_per_capita`
aggregation target (line 77) raises `KeyError` when no source supplied the
column. -/
def _clean_combined_data (t : Table) : Except Unit (List GRow) :=
  if t.hasCo2 = false then .error ()
  else if t.hasCode = false then .error ()
  else if t.hasPerCap = false then .error ()
  else .ok (addMA (sortCY (buildGroups (survivors t))))

/-- Adjustment performed by `pd.concat`: a source that lacks one of the
optional columns contributes NaN in that column for every one of its rows. -/
def concatRow (t : Table) (r : SrcRow) : SrcRow :=
  { r with
    co2_emissions := if t.hasCo2 then r.co2_emissions else .missing,
    co2_per_capita := if t.hasPerCap then r.co2_per_capita else none,
    country_code := if t.hasCode then r.country_code else none }

/-- Line 36, `pd.concat(dfs, ignore_index=True)`: union of the columns,
rows stacked in source order. -/
def concatTables (ts : List Table) : Table :=
  { hasCo2 := ts.any (fun t => t.hasCo2),
    hasPerCap := ts.any (fun t => t.hasPerCap),
    hasCode := ts.any (fun t => t.hasCode),
    rows := (ts.map (fun t => t.rows.map (concatRow t))).flatten }

/-- Lines 30-34: each source standardized in turn; the first exception
aborts the whole load. -/
def stdAll : List Table → Except Unit (List Table)
  | [] => .ok []
  | t :: ts =>
    match _standardize_format t, stdAll ts with
    | .ok t', .ok ts' => .ok (t' :: ts')
    | _, _ => .error ()

/-- Lines 27-48, `load_and_clean_data`: standardize every source,
concatenate, clean. `none` models the `except` branch returning `False`,
reached before the `to_sql` database write; `some` is the Combined Dataset,
written to the store and kept for the later stages. -/
def load_and_clean_data (sources : List Table) : Option (List GRow) :=
  match stdAll sources with
  | .error _ => none
  | .ok stds =>
    match _clean_combined_data (concatTables stds) with
    | .error _ => none
    | .ok g => some g

/-- Hotspot record appended at lines 110-115. Its `p_value` field holds
what line 107 binds to that name: the slope's standard error, not the
two-sided p-value (see the header note on the `[3:5]` slice). -/
structure Hotspot where
  country : String
  growth_rate : ℚ
  p_value : ℚ
  recent_emissions : ℚ
deriving DecidableEq, Repr

/-- Line 92: restriction of the Combined Dataset to `year >= start_year`. -/
def recentOf (combined : List GRow) (sy : ℤ) : List GRow :=
  combined.filter (fun r => sy ≤ r.year)

/-- Line 96: the rows of one country, in dataset order. -/
def cdOf (recent : List GRow) (c : String) : List GRow :=
  recent.filter (fun r => r.country = c)

/-- Lines 100-101: the `(year, co2_ma_5yr)` pairs handed to the regression.
The code does not drop missing responses; a NaN would abort the fit, so the
`getD 0` default is only read after the NaN check has passed. -/
def regPts (recent : List GRow) (c : String) : List (ℤ × ℚ) :=
  (cdOf recent c).map (fun r => (r.year, r.co2_ma_5yr.getD 0))

/-- NaN present among the responses of country `c`: makes
`LinearRegression.fit` raise at line 104. -/
def hasMissingMA (recent : List GRow) (c : String) : Bool :=
  (cdOf recent c).any (fun r => r.co2_ma_5yr = none)

/-- All predictor years of country `c` coincide: makes
`scipy.stats.linregress` raise at line 107. -/
def allYearsEq (recent : List GRow) (c : String) : Bool :=
  match cdOf recent c with
  | [] => true
  | r :: rs => rs.all (fun s => s.year = r.year)

/-- Ordinary least squares slope of `y` against `x`, the exact value of the
coefficient shared by `LinearRegression` (line 106) and
`stats.linregress` (line 107): `(n·Σxy − Σx·Σy) / (n·Σx² − (Σx)²)`. -/
def olsSlope (pts : List (ℤ × ℚ)) : ℚ :=
  let n : ℚ := pts.length
  let sx : ℚ := (pts.map (fun p => (p.1 : ℚ))).sum
  let sy : ℚ := (pts.map (fun p => p.2)).sum
  let sxx : ℚ := (pts.map (fun p => (p.1 : ℚ) * (p.1 : ℚ))).sum
  let sxy : ℚ := (pts.map (fun p => (p.1 : ℚ) * p.2)).sum
  (n * sxy - sx * sy) / (n * sxx - sx * sx)

/-- Line 114, `y[-1]`: the response of the chronologically last row of the
country's filtered subset (read only once the NaN check has passed). -/
def lastMA (recent : List GRow) (c : String) : ℚ :=
  ((regPts recent c).getLast?.map (fun p => p.2)).getD 0

/-- Candidate record of one country, lines 110-115. The `p_value` field
stores the quantity line 107 binds to `p_value`: by the `[3:5]` slice of
`stats.linregress`'s `(slope, intercept, rvalue, pvalue, stderr)` this is
the STANDARD ERROR of the slope, the true two-sided p-value being
discarded. That float square-root quantity is supplied as the explicit
parameter `sErr` throughout the detector. -/
def candOf (sErr : List (ℤ × ℚ) → ℚ) (recent : List GRow) (c : String) : Hotspot :=
  { country := c,
    growth_rate := olsSlope (regPts recent c),
    p_value := sErr (regPts recent c),
    recent_emissions := lastMA recent c }

/-- Lines 95-115: the per-country loop. Countries with fewer than five rows
are skipped silently; a NaN response or a constant predictor raises, which
the broad handler at line 125 turns into a failure of the whole detection
(`none`). A qualifying country contributes its candidate in iteration
order. -/
def hotspotLoop (sErr : List (ℤ × ℚ) → ℚ) (recent : List GRow) :
    List String → Option (List Hotspot)
  | [] => some []
  | c :: cs =>
    if (cdOf recent c).length < 5 then hotspotLoop sErr recent cs
    else if hasMissingMA recent c then none
    else if allYearsEq recent c then none
    else
      match hotspotLoop sErr recent cs with
      | none => none
      | some rest =>
        if 0 < (candOf sErr recent c).growth_rate ∧ (candOf sErr recent c).p_value < 1 / 20
        then some (candOf sErr recent c :: rest)
        else some rest

/-- Ascending comparison on `growth_rate` used by line 118's sort. -/
def grLe (a b : Hotspot) : Prop := a.growth_rate ≤ b.growth_rate

instance : DecidableRel grLe := fun a b => by unfold grLe; infer_instance

/-- Lines 89-127, `identify_hotspots`: candidates of the filtered subset,
then `sort_values('growth_rate', ascending=False).head(3)`. pandas realises
the descending sort as a stable ascending argsort (numpy insertion sort at
these sizes) followed by a reversal. An empty candidate list builds
`pd.DataFrame([])`, which has no `growth_rate` column, so the sort raises
`KeyError` and the handler reports failure (`none`). -/
def identify_hotspots (sErr : List (ℤ × ℚ) → ℚ) (combined : List GRow)
    (start_year : ℤ) : Option (List Hotspot) :=
  match hotspotLoop sErr (recentOf combined start_year)
      (uniqueFirst ((recentOf combined start_year).map (fun r => r.country))) with
  | none => none
  | some cands =>
    if cands = [] then none
    else some (((List.insertionSort grLe cands).reverse).take 3)

/-- Lines 129-145, `prepare_tableau_data`: the Combined Dataset with the
derived `is_hotspot` flag, by membership of `country` in the hotspot
countries; the flag is uniformly false when no hotspot list exists. -/
def prepare_tableau_data (combined : List GRow) (hotspots : Option (List Hotspot)) :
    List (GRow × Bool) :=
  combined.map (fun r =>
    (r, match hotspots with
        | some hs => hs.any (fun h => h.country = r.country)
        | none => false))

/-- Observable outcome of one run of `main`: what was written to the
database and what was exported for Tableau. -/
structure RunOutcome where
  dbWrite : Option (List GRow)
  tableauExport : Option (List (GRow × Bool))
deriving DecidableEq, Repr

/-- Lines 191-208, the source's `main` (Lean reserves that name for an
entry point): load failure aborts the run; a detection failure also returns
early (lines 199-200), so the export stage runs only when detection
succeeded. -/
def mainRun (sErr : List (ℤ × ℚ) → ℚ) (sources : List Table) : RunOutcome :=
  match load_and_clean_data sources with
  | none => { dbWrite := none, tableauExport := none }
  | some combined =>
    match identify_hotspots sErr combined 2015 with
    | none => { dbWrite := some combined, tableauExport := none }
    | some hs =>
      { dbWrite := some combined,
        tableauExport := some (prepare_tableau_data combined (some hs)) }

/-- Inclusion rule of the detector for one country, declarative form: at
least five rows in the filtered subset, positive slope, and line 109's
0.05 gate — which, by the `[3:5]` slice at line 107, is applied to the
slope's standard error, not to the two-sided p-value. -/
def qualifies (sErr : List (ℤ × ℚ) → ℚ) (recent : List GRow) (c : String) : Prop :=
  5 ≤ (cdOf recent c).length ∧
    0 < (candOf sErr recent c).growth_rate ∧ (candOf sErr recent c).p_value < 1 / 20

instance (sErr : List (ℤ × ℚ) → ℚ) (recent : List GRow) (c : String) :
    Decidable (qualifies sErr recent c) := by unfold qualifies; infer_instance

/-- Declarative candidate list: the qualifying countries in iteration
(first-appearance) order, each with its candidate record. -/
def qualifiers (sErr : List (ℤ × ℚ) → ℚ) (recent : List GRow) : List Hotspot :=
  ((uniqueFirst (recent.map (fun r => r.country))).filter
      (fun c => decide (qualifies sErr recent c))).map (candOf sErr recent)

/-- Descending comparison on `growth_rate`. -/
def grGe (a b : Hotspot) : Prop := b.growth_rate ≤ a.growth_rate

instance : DecidableRel grGe := fun a b => by unfold grGe; infer_instance

/-- Hotspot list exactly as the specification words it: the qualifying
countries sorted by `growth_rate` descending with ties broken by the
original per-country iteration order (a stable descending sort), truncated
to the top three. -/
def claimC1List (sErr : List (ℤ × ℚ) → ℚ) (combined : List GRow) (sy : ℤ) :
    List Hotspot :=
  (List.insertionSort grGe (qualifiers sErr (recentOf combined sy))).take 3

/-- Non-missing regression pairs of a country, the fit input described by
the specification ("using only non-missing pairs"). -/
def dropPts (recent : List GRow) (c : String) : List (ℤ × ℚ) :=
  (cdOf recent c).filterMap (fun r => r.co2_ma_5yr.map (fun v => (r.year, v)))

/-- Candidate record as the specification describes it: OLS on the
non-missing pairs only, with `pv` abstracting the two-sided significance
p-value the spec prescribes for the slope. -/
def candOfSpecC5 (pv : List (ℤ × ℚ) → ℚ) (recent : List GRow) (c : String) : Hotspot :=
  { country := c,
    growth_rate := olsSlope (dropPts recent c),
    p_value := pv (dropPts recent c),
    recent_emissions := (((dropPts recent c).getLast?).map (fun p => p.2)).getD 0 }

/-- Qualifying countries under the specification's drop-missing fit: the
detector the spec describes never aborts on a missing smoothed value. -/
def specC5Qualifiers (pv : List (ℤ × ℚ) → ℚ) (recent : List GRow) : List Hotspot :=
  ((uniqueFirst (recent.map (fun r => r.country))).filter
      (fun c => decide (5 ≤ (cdOf recent c).length ∧
        0 < (candOfSpecC5 pv recent c).growth_rate ∧
        (candOfSpecC5 pv recent c).p_value < 1 / 20))).map (candOfSpecC5 pv recent)

/-- Reconstruction of a combined row as a raw row, for feeding the
Aggregator its own output: every column present, the numeric emissions
value put back into a cell. -/
def reloadRow (r : GRow) : SrcRow :=
  { country := some r.country,
    country_code := some r.country_code,
    year := r.year,
    co2_emissions := match r.co2_emissions with | some q => .num q | none => .missing,
    co2_per_capita := r.co2_per_capita }

/-- An already-aggregated Combined Dataset viewed as the input table of a
second Aggregator run. -/
def reload (g : List GRow) : Table :=
  { hasCo2 := true, hasPerCap := true, hasCode := true, rows := g.map reloadRow }

/-- Stand-in for the abstracted per-country statistic in the concrete
runs below. The data of those runs makes every fitted line exact: the
residuals vanish, so the standard error `stats.linregress` computes (the
quantity line 107 stores as `p_value`) is exactly 0.0 — the float
arithmetic on these small integer inputs is exact and `1 - r**2` is
exactly zero — and the discarded true two-sided p-value is likewise far
below 0.05. The constant 0 therefore reproduces every comparison the
code's gate, or the spec's detector, makes on it. -/
def zeroStat : List (ℤ × ℚ) → ℚ := fun _ => 0

/-- Combined row with its smoothed column blanked: the part of a row that
the rolling-mean transform leaves untouched. -/
def stripMA (r : GRow) : GRow := { r with co2_ma_5yr := none }

/-- Helper for concrete combined rows: country, year, code, emissions,
smoothed value, with a fixed per-capita value. -/
def mkG (c : String) (y : ℤ) (k : String) (e m : Option ℚ) : GRow := ⟨c, y, k, e, some 1, m⟩

/-- Combined Dataset with two countries whose smoothed emissions rise by
exactly one ton per year over 2015-2019: both get slope 1, a growth-rate
tie. -/
def exTie : List GRow :=
  [mkG "A" 2015 "AA" (some 1) (some 1), mkG "A" 2016 "AA" (some 2) (some 2),
   mkG "A" 2017 "AA" (some 3) (some 3), mkG "A" 2018 "AA" (some 4) (some 4),
   mkG "A" 2019 "AA" (some 5) (some 5),
   mkG "B" 2015 "BB" (some 11) (some 11), mkG "B" 2016 "BB" (some 12) (some 12),
   mkG "B" 2017 "BB" (some 13) (some 13), mkG "B" 2018 "BB" (some 14) (some 14),
   mkG "B" 2019 "BB" (some 15) (some 15)]

/-- Combined Dataset with one country, five rows in the analysis window,
whose last smoothed value is missing. -/
def exMissing : List GRow :=
  [mkG "A" 2015 "AA" (some 1) (some 1), mkG "A" 2016 "AA" (some 2) (some 2),
   mkG "A" 2017 "AA" (some 3) (some 3), mkG "A" 2018 "AA" (some 4) (some 4),
   mkG "A" 2019 "AA" (some 5) none]

/-- Source table whose maximum raw emissions value is 500 (megaton
range). -/
def exC2 : Table := ⟨true, true, true, [⟨some "A", some "AA", 2000, .num 500, some 1⟩]⟩

/-- Concatenated table with a single surviving row whose `country_code`
cell is missing. -/
def exC3 : Table := ⟨true, true, true, [⟨some "A", none, 2000, .num 5, some 1⟩]⟩

/-- Source table holding a non-parseable string among its emissions
values. -/
def exC7 : Table := ⟨true, true, true,
  [⟨some "A", some "AA", 2000, .num 100, some 1⟩,
   ⟨some "A", some "AA", 2001, .strv "abc", some 1⟩]⟩

/-- Source table without a `co2`/`co2_emissions` column. -/
def exC10 : Table := ⟨false, true, true, [⟨some "A", some "AA", 2000, .missing, some 1⟩]⟩

/-- Well-formed one-row source in the metric-ton range (no rescaling). -/
def exSrcC6 : Table := ⟨true, true, true, [⟨some "A", some "AA", 2015, .num 5000000, some 1⟩]⟩

/-- The combined row the pipeline produces from `exSrcC6`. -/
def exRow6 : GRow := ⟨"A", 2015, "AA", some 5000000, some 1, none⟩

/-- The Combined Dataset the pipeline produces from `exSrcC6`: one country
with a single row, so hotspot detection finds no qualifying country. -/
def exCombinedC6 : List GRow := [exRow6]

/-- Source with one country and three consecutive yearly observations. -/
def exT4 : Table := ⟨true, true, true,
  [⟨some "A", some "AA", 2015, .num 3, some 1⟩,
   ⟨some "A", some "AA", 2016, .num 6, some 1⟩,
   ⟨some "A", some "AA", 2017, .num 9, some 1⟩]⟩

/-- Combined Dataset of `exT4`: the smoothed value appears on the third
row only. -/
def exG4 : List GRow :=
  [⟨"A", 2015, "AA", some 3, some 1, none⟩,
   ⟨"A", 2016, "AA", some 6, some 1, none⟩,
   ⟨"A", 2017, "AA", some 9, some 1, some 6⟩]

/-- Membership in the first-occurrence deduplication with an accumulator. -/
theorem mem_uniqueFirstAux {α : Type} [DecidableEq α] (x : α) :
    ∀ (seen : List α) (l : List α), x ∈ uniqueFirstAux seen l ↔ (x ∈ l ∧ x ∉ seen)
  | seen, [] => by simp [uniqueFirstAux]
  | seen, a :: l => by
    by_cases ha : a ∈ seen
    · rw [uniqueFirstAux, if_pos ha, mem_uniqueFirstAux x seen l]
      constructor
      · rintro ⟨h1, h2⟩; exact ⟨List.mem_cons_of_mem a h1, h2⟩
      · rintro ⟨h1, h2⟩
        rcases List.mem_cons.mp h1 with rfl | h1
        · exact absurd ha h2
        · exact ⟨h1, h2⟩
    · rw [uniqueFirstAux, if_neg ha]
      constructor
      · intro hx
        rcases List.mem_cons.mp hx with rfl | hx
        · exact ⟨List.mem_cons_self x l, ha⟩
        · obtain ⟨h1, h2⟩ := (mem_uniqueFirstAux x (a :: seen) l).mp hx
          exact ⟨List.mem_cons_of_mem a h1, fun hs => h2 (List.mem_cons_of_mem a hs)⟩
      · rintro ⟨h1, h2⟩
        rcases List.mem_cons.mp h1 with rfl | h1
        · exact List.mem_cons_self x _
        · by_cases hxa : x = a
          · exact hxa ▸ List.mem_cons_self x _
          · refine List.mem_cons_of_mem a ((mem_uniqueFirstAux x (a :: seen) l).mpr ⟨h1, fun hx => ?_⟩)
            rcases List.mem_cons.mp hx with h | h
            · exact hxa h
            · exact h2 h

/-- First-occurrence deduplication yields no duplicates. -/
theorem nodup_uniqueFirstAux {α : Type} [DecidableEq α] :
    ∀ (seen : List α) (l : List α), (uniqueFirstAux seen l).Nodup
  | seen, [] => List.nodup_nil
  | seen, a :: l => by
    by_cases ha : a ∈ seen
    · rw [uniqueFirstAux, if_pos ha]; exact nodup_uniqueFirstAux seen l
    · rw [uniqueFirstAux, if_neg ha, List.nodup_cons]
      refine ⟨fun hx => ?_, nodup_uniqueFirstAux (a :: seen) l⟩
      exact ((mem_uniqueFirstAux a (a :: seen) l).mp hx).2 (List.mem_cons_self a seen)

/-- First-occurrence deduplication of a duplicate-free list disjoint from the
accumulator is the identity. -/
theorem uniqueFirstAux_eq_self {α : Type} [DecidableEq α] :
    ∀ (seen : List α) (l : List α), l.Nodup → (∀ a ∈ l, a ∉ seen) → uniqueFirstAux seen l = l
  | _, [], _, _ => rfl
  | seen, a :: l, hnd, hdisj => by
    have ha : a ∉ seen := hdisj a (List.mem_cons_self a l)
    rw [uniqueFirstAux, if_neg ha]
    refine congrArg (a :: ·) (uniqueFirstAux_eq_self (a :: seen) l (List.nodup_cons.mp hnd).2 ?_)
    intro b hb hbs
    rcases List.mem_cons.mp hbs with rfl | h
    · exact (List.nodup_cons.mp hnd).1 hb
    · exact hdisj b (List.mem_cons_of_mem a hb) h

/-- Membership is preserved by `uniqueFirst`. -/
theorem mem_uniqueFirst {α : Type} [DecidableEq α] (x : α) (l : List α) :
    x ∈ uniqueFirst l ↔ x ∈ l := by
  simp [uniqueFirst, mem_uniqueFirstAux]

/-- The distinct values produced by `uniqueFirst` are duplicate-free. -/
theorem nodup_uniqueFirst {α : Type} [DecidableEq α] (l : List α) :
    (uniqueFirst l).Nodup := nodup_uniqueFirstAux [] l

/-- On a duplicate-free list, `uniqueFirst` is the identity. -/
theorem uniqueFirst_eq_self {α : Type} [DecidableEq α] (l : List α) (h : l.Nodup) :
    uniqueFirst l = l := uniqueFirstAux_eq_self [] l h (by simp)

/-- The rolling-mean transform only rewrites the `co2_ma_5yr` column. -/
theorem addMAGo_map_strip : ∀ (hist : String → List (Option ℚ)) (l : List GRow),
    (addMAGo hist l).map stripMA = l.map stripMA
  | _, [] => rfl
  | hist, r :: rs => by
    simp only [addMAGo, List.map_cons, addMAGo_map_strip]
    rfl

/-- The rolling-mean transform preserves every row's group key. -/
theorem addMAGo_map_key : ∀ (hist : String → List (Option ℚ)) (l : List GRow),
    (addMAGo hist l).map keyOfG = l.map keyOfG
  | _, [] => rfl
  | hist, r :: rs => by
    simp only [addMAGo, List.map_cons, addMAGo_map_key]
    rfl

/-- Per-country correctness of the rolling-mean transform: restricted to
one country, the assigned `co2_ma_5yr` column is the rolling mean of that
country's emissions sequence continued from the country's history. -/
theorem addMAGo_filter_ma (c : String) : ∀ (hist : String → List (Option ℚ)) (l : List GRow),
    ((addMAGo hist l).filter (fun r => r.country = c)).map (fun r => r.co2_ma_5yr)
      = rollingMAFrom (hist c) ((l.filter (fun r => r.country = c)).map (fun r => r.co2_emissions))
  | hist, [] => rfl
  | hist, r :: rs => by
    by_cases hc : r.country = c
    · subst hc
      rw [addMAGo, List.filter_cons_of_pos (by simp), List.filter_cons_of_pos (by simp),
        List.map_cons, List.map_cons, rollingMAFrom, addMAGo_filter_ma r.country _ rs,
        if_pos rfl]
    · rw [addMAGo, List.filter_cons_of_neg (by simpa using hc),
        List.filter_cons_of_neg (by simpa using hc), addMAGo_filter_ma c _ rs,
        if_neg (fun h => hc h.symm)]

/-- The rolling-mean transform preserves the emissions column of every
country's rows. -/
theorem addMAGo_filter_co2 (c : String) : ∀ (hist : String → List (Option ℚ)) (l : List GRow),
    ((addMAGo hist l).filter (fun r => r.country = c)).map (fun r => r.co2_emissions)
      = (l.filter (fun r => r.country = c)).map (fun r => r.co2_emissions)
  | _, [] => rfl
  | hist, r :: rs => by
    by_cases hc : r.country = c
    · rw [addMAGo, List.filter_cons_of_pos (by simpa using hc),
        List.filter_cons_of_pos (by simpa using hc), List.map_cons, List.map_cons,
        addMAGo_filter_co2 c _ rs]
    · rw [addMAGo, List.filter_cons_of_neg (by simpa using hc),
        List.filter_cons_of_neg (by simpa using hc), addMAGo_filter_co2 c _ rs]

/-- Successful runs of the per-country loop produce exactly the candidates
of the qualifying countries, in iteration order. -/
theorem hotspotLoop_eq (sErr : List (ℤ × ℚ) → ℚ) (recent : List GRow) :
    ∀ (cs : List String) (l : List Hotspot),
      hotspotLoop sErr recent cs = some l →
      l = (cs.filter (fun c => decide (qualifies sErr recent c))).map (candOf sErr recent)
  | [], l, h => by
    simp only [hotspotLoop, Option.some.injEq] at h
    simp [← h]
  | c :: cs, l, h => by
    rw [hotspotLoop] at h
    by_cases h5 : (cdOf recent c).length < 5
    · rw [if_pos h5] at h
      rw [List.filter_cons_of_neg, hotspotLoop_eq sErr recent cs l h]
      simp only [decide_eq_true_eq]
      exact fun hq => absurd hq.1 (by omega)
    · rw [if_neg h5] at h
      by_cases hm : hasMissingMA recent c = true
      · rw [if_pos hm] at h; exact absurd h (by simp)
      · rw [if_neg hm] at h
        by_cases hy : allYearsEq recent c = true
        · rw [if_pos hy] at h; exact absurd h (by simp)
        · rw [if_neg hy] at h
          rcases hrec : hotspotLoop sErr recent cs with _ | rest
          · rw [hrec] at h; exact absurd h (by simp)
          · rw [hrec] at h
            dsimp only at h
            by_cases hq : 0 < (candOf sErr recent c).growth_rate ∧
                (candOf sErr recent c).p_value < 1 / 20
            · rw [if_pos hq, Option.some.injEq] at h
              rw [List.filter_cons_of_pos, List.map_cons,
                ← hotspotLoop_eq sErr recent cs rest hrec, ← h]
              simp only [decide_eq_true_eq]
              exact ⟨by omega, hq.1, hq.2⟩
            · rw [if_neg hq, Option.some.injEq] at h
              rw [List.filter_cons_of_neg, ← hotspotLoop_eq sErr recent cs rest hrec, ← h]
              simp only [decide_eq_true_eq]
              exact fun hqq => hq ⟨hqq.2.1, hqq.2.2⟩

/-- On a successful run of the per-country loop, every considered country
(five rows or more) passed the two fit checks: no missing response and a
non-constant predictor. -/
theorem hotspotLoop_checks (sErr : List (ℤ × ℚ) → ℚ) (recent : List GRow) :
    ∀ (cs : List String) (l : List Hotspot),
      hotspotLoop sErr recent cs = some l →
      ∀ c ∈ cs, 5 ≤ (cdOf recent c).length →
        hasMissingMA recent c = false ∧ allYearsEq recent c = false
  | [], _, _, c, hc, _ => absurd hc (List.not_mem_nil c)
  | c' :: cs, l, h, c, hc, hlen => by
    rw [hotspotLoop] at h
    by_cases h5 : (cdOf recent c').length < 5
    · rw [if_pos h5] at h
      rcases List.mem_cons.mp hc with rfl | hc
      · omega
      · exact hotspotLoop_checks sErr recent cs l h c hc hlen
    · rw [if_neg h5] at h
      by_cases hm : hasMissingMA recent c' = true
      · rw [if_pos hm] at h; exact absurd h (by simp)
      · rw [if_neg hm] at h
        by_cases hy : allYearsEq recent c' = true
        · rw [if_pos hy] at h; exact absurd h (by simp)
        · rw [if_neg hy] at h
          rcases hrec : hotspotLoop sErr recent cs with _ | rest
          · rw [hrec] at h; exact absurd h (by simp)
          · rw [hrec] at h
            dsimp only at h
            rcases List.mem_cons.mp hc with rfl | hc
            · exact ⟨Bool.eq_false_iff.mpr hm, Bool.eq_false_iff.mpr hy⟩
            · exact hotspotLoop_checks sErr recent cs rest hrec c hc hlen

/-- Dropping missing responses from a list without missing responses is the
plain pairing of years with responses. -/
theorem filterMap_ma_eq_map (l : List GRow) (h : ∀ r ∈ l, r.co2_ma_5yr ≠ none) :
    l.filterMap (fun r => r.co2_ma_5yr.map (fun v => (r.year, v)))
      = l.map (fun r => (r.year, r.co2_ma_5yr.getD 0)) := by
  induction l with
  | nil => rfl
  | cons r rs ih =>
    rcases ho : r.co2_ma_5yr with _ | v
    · exact absurd ho (h r (List.mem_cons_self r rs))
    · rw [List.filterMap_cons, List.map_cons]
      simp only [ho, Option.map_some]
      rw [ih (fun s hs => h s (List.mem_cons_of_mem r hs))]
      simp [ho]

/-- For a country without missing smoothed values, the non-missing pairs
are exactly all pairs of its filtered subset. -/
theorem dropPts_eq_regPts (recent : List GRow) (c : String)
    (h : hasMissingMA recent c = false) : dropPts recent c = regPts recent c := by
  rw [dropPts, regPts]
  refine filterMap_ma_eq_map _ (fun r hr ho => ?_)
  rw [hasMissingMA, List.any_eq_false] at h
  exact h r hr (by simp [ho])

/-- A group row carries the key it was built from. -/
theorem keyOfG_mkGroupRow (rows : List SrcRow) (k : Key) : keyOfG (mkGroupRow rows k) = k := rfl

/-- The key column of the aggregation is the sorted list of distinct keys. -/
theorem buildGroups_map_key (rows : List SrcRow) :
    (buildGroups rows).map keyOfG
      = List.insertionSort keyLe (uniqueFirst (rows.filterMap rowKey)) := by
  rw [buildGroups, List.map_map]
  conv_rhs => rw [← List.map_id (List.insertionSort keyLe (uniqueFirst (rows.filterMap rowKey)))]
  exact List.map_congr_left (fun k _ => rfl)

/-- The aggregation emits its groups sorted by key. -/
theorem buildGroups_keys_sorted (rows : List SrcRow) :
    List.Sorted keyLe ((buildGroups rows).map keyOfG) := by
  rw [buildGroups_map_key]
  exact List.sorted_insertionSort keyLe _

/-- The aggregation emits one row per distinct key. -/
theorem buildGroups_keys_nodup (rows : List SrcRow) :
    ((buildGroups rows).map keyOfG).Nodup := by
  rw [buildGroups_map_key]
  exact ((List.perm_insertionSort keyLe _).nodup_iff).mpr (nodup_uniqueFirst _)

/-- The key order refines the `(country, year)` order of line 82's sort. -/
theorem keyLe_imp_cyLe (a b : GRow) (h : keyLe (keyOfG a) (keyOfG b)) : cyLe a b := by
  rcases h with h | ⟨h1, h2⟩
  · exact Or.inl h
  · refine Or.inr ⟨h1, ?_⟩
    rcases h2 with h2 | ⟨h2, _⟩
    · exact le_of_lt h2
    · exact le_of_eq h2

/-- Rows sorted by full key are sorted by `(country, year)`. -/
theorem sorted_cyLe_of_keys (l : List GRow) (h : List.Sorted keyLe (l.map keyOfG)) :
    List.Sorted cyLe l :=
  List.Pairwise.imp (fun hab => keyLe_imp_cyLe _ _ hab) (List.pairwise_map.mp h)

/-- Line 82's sort leaves the aggregation output unchanged: the groups
already come out sorted by `(country, year, country_code)`, which refines
the `(country, year)` order, and the sort is stable. -/
theorem sortCY_buildGroups (rows : List SrcRow) : sortCY (buildGroups rows) = buildGroups rows :=
  List.Sorted.insertionSort_eq (sorted_cyLe_of_keys _ (buildGroups_keys_sorted rows))

/-- Decomposition of a successful cleaning run into its stages, with the
presence of the three accessed columns. -/
theorem clean_eq (t : Table) (g : List GRow) (h : _clean_combined_data t = .ok g) :
    g = addMA (buildGroups (survivors t))
      ∧ t.hasCo2 = true ∧ t.hasCode = true ∧ t.hasPerCap = true := by
  rw [_clean_combined_data] at h
  cases h1 : t.hasCo2 with
  | false => rw [if_pos h1] at h; exact absurd h (by simp)
  | true =>
    rw [if_neg (by simp [h1])] at h
    cases h2 : t.hasCode with
    | false => rw [if_pos h2] at h; exact absurd h (by simp)
    | true =>
      rw [if_neg (by simp [h2])] at h
      cases h3 : t.hasPerCap with
      | false => rw [if_pos h3] at h; exact absurd h (by simp)
      | true =>
        rw [if_neg (by simp [h3]), sortCY_buildGroups, Except.ok.injEq] at h
        exact ⟨h.symm, rfl, rfl, rfl⟩

/-- Every aggregation row is the group row of its own key, a key realised
by at least one input row. -/
theorem mem_buildGroups (rows : List SrcRow) (r : GRow) (hr : r ∈ buildGroups rows) :
    r = mkGroupRow rows (keyOfG r) ∧ keyOfG r ∈ rows.filterMap rowKey := by
  rw [buildGroups] at hr
  obtain ⟨k, hk, rfl⟩ := List.mem_map.mp hr
  rw [keyOfG_mkGroupRow]
  refine ⟨rfl, ?_⟩
  have hk' : k ∈ uniqueFirst (rows.filterMap rowKey) := by simpa using hk
  exact (mem_uniqueFirst _ _).mp hk'

/-- Rows surviving the cleaning filters satisfy the year threshold. -/
theorem survivors_year (t : Table) (s : SrcRow) (hs : s ∈ survivors t) : 1970 ≤ s.year := by
  rw [survivors] at hs
  have := (List.mem_filter.mp hs).2
  simpa using this

/-- A row's group key carries the row's year. -/
theorem rowKey_year (s : SrcRow) (k : Key) (h : rowKey s = some k) : k.2.1 = s.year := by
  rcases hc : s.country with _ | c
  · rw [rowKey, hc] at h; exact absurd h (by simp)
  · rcases hd : s.country_code with _ | d
    · rw [rowKey, hc, hd] at h; exact absurd h (by simp)
    · rw [rowKey, hc, hd, Option.some.injEq] at h
      rw [← h]

/-- The mean aggregation over a one-row group returns that row's value,
missing included. -/
theorem meanOpt_singleton (o : Option ℚ) : meanOpt [o] = o := by
  rcases o with _ | q
  · rfl
  · simp [meanOpt]

/-- A reconstructed combined row regroups under its own key. -/
theorem rowKey_reloadRow (r : GRow) : rowKey (reloadRow r) = some (keyOfG r) := rfl

/-- Reading the emissions cell of a reconstructed row gives the original
value. -/
theorem cellVal_reloadRow (r : GRow) : cellVal (reloadRow r).co2_emissions = r.co2_emissions := by
  rcases h : r.co2_emissions with _ | q <;> simp [reloadRow, cellVal, h]

/-- Rows whose smoothed column is already blank are fixed by `stripMA`. -/
theorem stripMA_eq_self (r : GRow) (h : r.co2_ma_5yr = none) : stripMA r = r := by
  cases r
  simp only [stripMA]
  simp_all

/-- Numeric coercion is the identity on reconstructed rows: their emissions
cell is already numeric or missing. -/
theorem toNumeric_reloadRow (r : GRow) :
    ({ reloadRow r with co2_emissions := toNumericCell (reloadRow r).co2_emissions }) = reloadRow r := by
  rcases h : r.co2_emissions with _ | q <;> simp [reloadRow, toNumericCell, h]

/-- The cleaning filters keep every reconstructed combined row. -/
theorem survivors_reload (g : List GRow) (hy : ∀ r ∈ g, 1970 ≤ r.year) :
    survivors (reload g) = g.map reloadRow := by
  rw [survivors, reload]
  have h1 : (g.map reloadRow).map
      (fun r => { r with co2_emissions := toNumericCell r.co2_emissions }) = g.map reloadRow := by
    rw [List.map_map]
    exact List.map_congr_left (fun r _ => toNumeric_reloadRow r)
  have h2 : (g.map reloadRow).filter (fun r => r.country.isSome) = g.map reloadRow := by
    refine List.filter_eq_self.mpr (fun s hs => ?_)
    obtain ⟨r, _, rfl⟩ := List.mem_map.mp hs
    simp [reloadRow]
  have h3 : (g.map reloadRow).filter (fun r => 1970 ≤ r.year) = g.map reloadRow := by
    refine List.filter_eq_self.mpr (fun s hs => ?_)
    obtain ⟨r, hr, rfl⟩ := List.mem_map.mp hs
    simpa [reloadRow] using hy r hr
  rw [h1, h2, h3]

/-- With duplicate-free keys, a reconstructed dataset has exactly one row
per key: regrouping forms singleton groups. -/
theorem filter_key_singleton : ∀ (L : List GRow), ((L.map keyOfG).Nodup) → ∀ r ∈ L,
    (L.map reloadRow).filter (fun s => rowKey s = some (keyOfG r)) = [reloadRow r]
  | [], _, r, hr => absurd hr (List.not_mem_nil r)
  | a :: L, hnd, r, hr => by
    have hnd' : (keyOfG a ∉ L.map keyOfG) ∧ (L.map keyOfG).Nodup := by
      rw [List.map_cons, List.nodup_cons] at hnd
      exact hnd
    rw [List.map_cons]
    rcases List.mem_cons.mp hr with rfl | hr
    · rw [List.filter_cons_of_pos (by simp [rowKey_reloadRow])]
      rw [List.filter_eq_nil_iff.mpr, List.cons.injEq]
      · exact ⟨rfl, rfl⟩
      · intro s hs
        obtain ⟨b, hb, rfl⟩ := List.mem_map.mp hs
        simp only [rowKey_reloadRow, decide_eq_true_eq, Option.some.injEq]
        intro hbr
        exact hnd'.1 (hbr ▸ List.mem_map_of_mem keyOfG hb)
    · rw [List.filter_cons_of_neg, filter_key_singleton L hnd'.2 r hr]
      simp only [rowKey_reloadRow, decide_eq_true_eq, Option.some.injEq]
      intro har
      exact hnd'.1 (har ▸ List.mem_map_of_mem keyOfG hr)

/-- Group-by-mean over the singleton group of a reconstructed row rebuilds
the row (smoothed column blanked). -/
theorem mkGroupRow_reload (g : List GRow) (hnd : (g.map keyOfG).Nodup) (r : GRow) (hr : r ∈ g) :
    mkGroupRow (g.map reloadRow) (keyOfG r) = stripMA r := by
  rw [mkGroupRow, filter_key_singleton g hnd r hr]
  simp only [List.map_cons, List.map_nil, meanOpt_singleton, cellVal_reloadRow]
  cases r
  simp [stripMA, reloadRow, keyOfG]

/-- The keys of a reconstructed dataset are the dataset's own keys. -/
theorem filterMap_rowKey_reload (g : List GRow) :
    (g.map reloadRow).filterMap rowKey = g.map keyOfG := by
  induction g with
  | nil => rfl
  | cons r rs ih => rw [List.map_cons, List.filterMap_cons, rowKey_reloadRow, List.map_cons, ih]

/-- Regrouping an already-aggregated dataset with duplicate-free sorted
keys reproduces its rows, smoothed column blanked. -/
theorem buildGroups_reload (g : List GRow) (hnd : (g.map keyOfG).Nodup)
    (hsort : List.Sorted keyLe (g.map keyOfG)) :
    buildGroups (g.map reloadRow) = g.map stripMA := by
  rw [buildGroups, filterMap_rowKey_reload, uniqueFirst_eq_self _ hnd,
    List.Sorted.insertionSort_eq hsort, List.map_map]
  exact List.map_congr_left (fun r hr => mkGroupRow_reload g hnd r hr)

/-- A combined row's key carries its year. -/
theorem keyOfG_year (r : GRow) : (keyOfG r).2.1 = r.year := rfl

/-- Every row of a cleaned dataset satisfies the year threshold. -/
theorem clean_year_bound (t : Table) (g : List GRow) (h : _clean_combined_data t = .ok g) :
    ∀ r ∈ g, 1970 ≤ r.year := by
  intro r hr
  obtain ⟨hg, -, -, -⟩ := clean_eq t g h
  have hk : keyOfG r ∈ g.map keyOfG := List.mem_map_of_mem keyOfG hr
  rw [hg, addMA, addMAGo_map_key] at hk
  obtain ⟨r', hr', hk'⟩ := List.mem_map.mp hk
  obtain ⟨-, hmem⟩ := mem_buildGroups _ r' hr'
  obtain ⟨s, hs, hsk⟩ := List.mem_filterMap.mp hmem
  have h1 := rowKey_year s _ hsk
  have h2 := survivors_year t s hs
  have h3 : (keyOfG r).2.1 = s.year := by rw [← hk', h1]
  rw [← keyOfG_year r, h3]
  exact h2

/-- A cleaned dataset's keys and unsmoothed rows coincide with those of its
aggregation stage. -/
theorem clean_ma_structure (t : Table) (g : List GRow) (h : _clean_combined_data t = .ok g) :
    g.map keyOfG = (buildGroups (survivors t)).map keyOfG
      ∧ g.map stripMA = buildGroups (survivors t) := by
  obtain ⟨hg, -, -, -⟩ := clean_eq t g h
  constructor
  · rw [hg, addMA, addMAGo_map_key]
  · rw [hg, addMA, addMAGo_map_strip]
    have hid : List.map stripMA (buildGroups (survivors t))
        = List.map id (buildGroups (survivors t)) :=
      List.map_congr_left (fun r hr => stripMA_eq_self r ((mem_buildGroups _ r hr).1 ▸ rfl))
    rw [hid, List.map_id]

/-- Standardization never adds or removes columns. -/
theorem std_flags (t t' : Table) (h : _standardize_format t = .ok t') :
    t'.hasCo2 = t.hasCo2 ∧ t'.hasPerCap = t.hasPerCap := by
  rw [_standardize_format] at h
  by_cases h1 : t.hasCo2 = true
  · rw [if_pos h1] at h
    rcases hcm : colMax (t.rows.map (fun r => r.co2_emissions)) with e | mo
    · rw [hcm] at h; exact absurd h (by simp)
    · rw [hcm] at h
      rcases mo with _ | m
      · dsimp only at h
        rw [Except.ok.injEq] at h
        rw [← h]
        exact ⟨rfl, rfl⟩
      · dsimp only at h
        split_ifs at h with h2 h3 <;> rw [Except.ok.injEq] at h <;> rw [← h] <;> exact ⟨rfl, rfl⟩
  · rw [if_neg h1, Except.ok.injEq] at h
    rw [← h]
    exact ⟨rfl, rfl⟩

/-- The column layout of the standardized sources matches the raw
sources. -/
theorem stdAll_flags : ∀ (ts ts' : List Table), stdAll ts = .ok ts' →
    ts'.map (fun t => (t.hasCo2, t.hasPerCap)) = ts.map (fun t => (t.hasCo2, t.hasPerCap))
  | [], ts', h => by
    rw [stdAll, Except.ok.injEq] at h
    rw [← h]
  | t :: ts, ts', h => by
    rw [stdAll] at h
    rcases h1 : _standardize_format t with e | t'
    · rw [h1] at h; exact absurd h (by simp)
    · rcases h2 : stdAll ts with e | ts''
      · rw [h1, h2] at h; exact absurd h (by simp)
      · rw [h1, h2] at h
        dsimp only at h
        rw [Except.ok.injEq] at h
        rw [← h, List.map_cons, List.map_cons, stdAll_flags ts ts'' h2]
        obtain ⟨f1, f2⟩ := std_flags t t' h1
        rw [f1, f2]

/-- Cleaning fails with a `KeyError` when the concatenated table lacks the
`co2_emissions` or the `co2_per_capita` column. -/
theorem clean_error_of_flags (t : Table) (h : t.hasCo2 = false ∨ t.hasPerCap = false) :
    _clean_combined_data t = .error () := by
  rcases h with h | h
  · rw [_clean_combined_data, if_pos h]
  · rw [_clean_combined_data]
    by_cases h1 : t.hasCo2 = false
    · rw [if_pos h1]
    · rw [if_neg h1]
      by_cases h2 : t.hasCode = false
      · rw [if_pos h2]
      · rw [if_neg h2, if_pos h]

/-- C1 (amended): whenever hotspot detection succeeds, the hotspot list is
the qualifying countries (at least five rows in the `year >= cutoff`
subset, positive slope, and below 0.05 the quantity the code stores as
`p_value` — the slope's standard error, by line 107's `[3:5]` slice, not
the true two-sided p-value), sorted by `growth_rate` descending and
truncated to the top three — but with growth-rate ties broken by the
REVERSE of the original per-country iteration order, because pandas
realises the descending sort as a stable ascending sort followed by a
reversal; and the qualifying set is necessarily non-empty. -/
theorem C1_hotspot_ranking : ∀ (sErr : List (ℤ × ℚ) → ℚ) (combined : List GRow) (sy : ℤ)
    (hs : List Hotspot),
    identify_hotspots sErr combined sy = some hs →
    qualifiers sErr (recentOf combined sy) ≠ []
      ∧ hs = ((List.insertionSort grLe (qualifiers sErr (recentOf combined sy))).reverse).take 3 := by
  intro sErr combined sy hs h
  rw [identify_hotspots] at h
  rcases hloop : hotspotLoop sErr (recentOf combined sy)
      (uniqueFirst ((recentOf combined sy).map (fun r => r.country))) with _ | cands
  · rw [hloop] at h; exact absurd h (by simp)
  · rw [hloop] at h
    dsimp only at h
    by_cases hc : cands = []
    · rw [if_pos hc] at h; exact absurd h (by simp)
    · rw [if_neg hc, Option.some.injEq] at h
      have h1 := hotspotLoop_eq sErr (recentOf combined sy) _ cands hloop
      have h2 : cands = qualifiers sErr (recentOf combined sy) := by rw [qualifiers]; exact h1
      exact ⟨h2 ▸ hc, by rw [← h, h2]⟩

/-- C1 witness: on `exTie`, detection succeeds and the theorem's ranking
description matches the computed hotspot list. -/
theorem C1_hotspot_ranking_witness :
    qualifiers zeroStat (recentOf exTie 2015) ≠ []
      ∧ [(⟨"B", 1, 0, 15⟩ : Hotspot), ⟨"A", 1, 0, 5⟩]
          = ((List.insertionSort grLe (qualifiers zeroStat (recentOf exTie 2015))).reverse).take 3 :=
  C1_hotspot_ranking zeroStat exTie 2015 [⟨"B", 1, 0, 15⟩, ⟨"A", 1, 0, 5⟩] (by
    norm_num +decide [identify_hotspots, hotspotLoop, recentOf, cdOf, exTie, mkG, uniqueFirst,
      uniqueFirstAux, hasMissingMA, allYearsEq, candOf, olsSlope, regPts, lastMA, zeroStat,
      List.insertionSort, List.orderedInsert, grLe, List.filterMap_cons, List.filter_cons,
      Function.comp])

/-- C1 counterexample: with the growth-rate tie of `exTie`, the code
returns the tied countries in REVERSED iteration order (`B` before `A`),
while the claim's stable descending sort would keep the original order
(`A` before `B`). Both fits are exact, so the standard error the code
gates on and stores as `p_value` is exactly 0.0 (and the discarded true
p-value is likewise below 0.05): the constant-zero stand-in reproduces
every comparison made. -/
theorem C1_counterexample :
    identify_hotspots zeroStat exTie 2015 = some [⟨"B", 1, 0, 15⟩, ⟨"A", 1, 0, 5⟩]
      ∧ claimC1List zeroStat exTie 2015 = [⟨"A", 1, 0, 5⟩, ⟨"B", 1, 0, 15⟩]
      ∧ ¬ identify_hotspots zeroStat exTie 2015 = some (claimC1List zeroStat exTie 2015) := by
  have h1 : identify_hotspots zeroStat exTie 2015
      = some [⟨"B", 1, 0, 15⟩, ⟨"A", 1, 0, 5⟩] := by
    norm_num +decide [identify_hotspots, hotspotLoop, recentOf, cdOf, exTie, mkG, uniqueFirst,
      uniqueFirstAux, hasMissingMA, allYearsEq, candOf, olsSlope, regPts, lastMA, zeroStat,
      List.insertionSort, List.orderedInsert, grLe, List.filterMap_cons, List.filter_cons,
      Function.comp]
  have h2 : claimC1List zeroStat exTie 2015 = [⟨"A", 1, 0, 5⟩, ⟨"B", 1, 0, 15⟩] := by
    norm_num +decide [claimC1List, qualifiers, qualifies, recentOf, cdOf, exTie, mkG, uniqueFirst,
      uniqueFirstAux, candOf, olsSlope, regPts, lastMA, zeroStat,
      List.insertionSort, List.orderedInsert, grGe, List.filterMap_cons, List.filter_cons,
      Function.comp]
  refine ⟨h1, h2, fun h => ?_⟩
  rw [h1, h2] at h
  simp at h

/-- C2: per-source unit rescaling. With a numeric emissions column of
maximum `m`, the source's values are multiplied by 1e6 when `m < 1e3`, by
1e3 when `1e3 <= m < 1e6`, and left unchanged when `1e6 <= m`. -/
theorem C2_unit_rescaling : ∀ (t : Table) (m : ℚ),
    t.hasCo2 = true →
    stringCells (t.rows.map (fun r => r.co2_emissions)) = [] →
    (numCells (t.rows.map (fun r => r.co2_emissions))).max? = some m →
    (m < 1000 → _standardize_format t = .ok (scaleTable 1000000 t))
      ∧ (1000 ≤ m → m < 1000000 → _standardize_format t = .ok (scaleTable 1000 t))
      ∧ (1000000 ≤ m → _standardize_format t = .ok t) := by
  intro t m h1 h2 h3
  rw [_standardize_format, if_pos h1, colMax, if_pos h2, h3]
  dsimp only
  refine ⟨fun hm => by rw [if_pos hm], fun hm1 hm2 => ?_, fun hm => ?_⟩
  · rw [if_neg (not_lt.mpr hm1), if_pos hm2]
  · rw [if_neg (not_lt.mpr (le_trans (by norm_num) hm)),
      if_neg (not_lt.mpr (le_trans (by norm_num) hm))]

/-- C2 witness: a source with maximum raw value 500 is rescaled by 1e6. -/
theorem C2_unit_rescaling_witness :
    _standardize_format exC2 = .ok (scaleTable 1000000 exC2)
      ∧ scaleTable 1000000 exC2
          = ⟨true, true, true, [⟨some "A", some "AA", 2000, .num 500000000, some 1⟩]⟩ :=
  ⟨(C2_unit_rescaling exC2 500 rfl rfl rfl).1 (by norm_num),
   by norm_num [scaleTable, exC2, scaleCell]⟩

/-- C3 (amended): in the Combined Dataset there is exactly one row per
`(country, year, country_code)` triple (keys are duplicate-free), each
row's `co2_emissions` and `co2_per_capita` are the means (missing excluded,
all-missing giving missing) over the surviving rows that carry its key, and
every surviving row WITH a present `country_code` has its key represented.
Rows whose `country_code` is missing obtain no key (`rowKey` is `none`);
pandas `groupby` drops them, so they contribute to no group. -/
theorem C3_grouping : ∀ (t : Table) (g : List GRow), _clean_combined_data t = .ok g →
    ((g.map keyOfG).Nodup)
      ∧ (∀ r ∈ g,
          r.co2_emissions = meanOpt (((survivors t).filter
              (fun s => rowKey s = some (keyOfG r))).map (fun s => cellVal s.co2_emissions))
            ∧ r.co2_per_capita = meanOpt (((survivors t).filter
                (fun s => rowKey s = some (keyOfG r))).map (fun s => s.co2_per_capita))
            ∧ keyOfG r ∈ (survivors t).filterMap rowKey)
      ∧ (∀ s ∈ survivors t, ∀ k, rowKey s = some k → k ∈ g.map keyOfG) := by
  intro t g h
  obtain ⟨hkeys, hstrip⟩ := clean_ma_structure t g h
  refine ⟨by rw [hkeys]; exact buildGroups_keys_nodup _, fun r hr => ?_, fun s hs k hk => ?_⟩
  · have hr' : stripMA r ∈ g.map stripMA := List.mem_map_of_mem stripMA hr
    rw [hstrip] at hr'
    obtain ⟨heq, hmem⟩ := mem_buildGroups _ (stripMA r) hr'
    have h1 := congrArg GRow.co2_emissions heq
    have h2 := congrArg GRow.co2_per_capita heq
    exact ⟨h1, h2, hmem⟩
  · rw [hkeys, buildGroups_map_key]
    simp only [List.mem_insertionSort, mem_uniqueFirst]
    exact List.mem_filterMap.mpr ⟨s, hs, hk⟩

/-- C3 witness: on `exSrcC6` the cleaned dataset has duplicate-free keys
and its single row's emissions value is the group mean of the surviving
rows with its key. -/
theorem C3_grouping_witness :
    _clean_combined_data exSrcC6 = .ok exCombinedC6
      ∧ (exCombinedC6.map keyOfG).Nodup
      ∧ exRow6.co2_emissions = meanOpt (((survivors exSrcC6).filter
          (fun s => rowKey s = some (keyOfG exRow6))).map (fun s => cellVal s.co2_emissions)) := by
  have h : _clean_combined_data exSrcC6 = .ok exCombinedC6 := by
    norm_num +decide [_clean_combined_data, buildGroups, survivors, exSrcC6, exRow6, exCombinedC6,
      toNumericCell, rowKey, uniqueFirst, uniqueFirstAux, sortCY, addMA, addMAGo,
      List.insertionSort, List.orderedInsert, mkGroupRow, meanOpt, cellVal, keyOfG, maOfHist,
      List.filterMap_cons, List.filter_cons]
  have h2 := C3_grouping exSrcC6 exCombinedC6 h
  exact ⟨h, h2.1, ((h2.2.1 exRow6 (List.mem_cons_self exRow6 [])).1)⟩

/-- C3 counterexample: a row with country `"A"`, year 2000 and a missing
`country_code` survives the cleaning filters yet the Combined Dataset is
empty — the row contributed to NO group, contradicting the claim that such
rows contribute to exactly one group (which would force at least one
output row here). -/
theorem C3_counterexample :
    survivors exC3 = [⟨some "A", none, 2000, Cell.num 5, some 1⟩]
      ∧ _clean_combined_data exC3 = .ok []
      ∧ ¬ (∀ g : List GRow, _clean_combined_data exC3 = .ok g → 1 ≤ g.length) := by
  refine ⟨rfl, rfl, fun h => ?_⟩
  have := h [] rfl
  simp at this

/-- C4: within each country of the Combined Dataset, `co2_ma_5yr` is the
trailing rolling mean of `co2_emissions` over the window of the last five
rows, defined exactly when the window holds at least three non-missing
values; in particular three consecutive observations give a value on the
third row only (equal to their mean), and two observations give no value
at all. -/
theorem C4_rolling_mean : ∀ (t : Table) (g : List GRow), _clean_combined_data t = .ok g →
    (∀ c : String,
        ((g.filter (fun r => r.country = c)).map (fun r => r.co2_ma_5yr))
          = rollingMA ((g.filter (fun r => r.country = c)).map (fun r => r.co2_emissions)))
      ∧ (∀ a b c : ℚ, rollingMA [some a, some b, some c] = [none, none, some ((a + b + c) / 3)])
      ∧ (∀ a b : ℚ, rollingMA [some a, some b] = [none, none]) := by
  intro t g h
  refine ⟨fun c => ?_, fun a b c => ?_, fun a b => ?_⟩
  · obtain ⟨hg, -, -, -⟩ := clean_eq t g h
    rw [hg, addMA, addMAGo_filter_ma c (fun _ => []) _, addMAGo_filter_co2 c (fun _ => []) _]
    rfl
  · norm_num [rollingMA, rollingMAFrom, maOfHist, List.filterMap_cons]
    ring
  · norm_num [rollingMA, rollingMAFrom, maOfHist, List.filterMap_cons]

/-- C4 witness: the country of `exT4` with exactly three consecutive
observations gets its smoothed value on the third row only, matching the
rolling-mean description. -/
theorem C4_rolling_mean_witness :
    _clean_combined_data exT4 = .ok exG4
      ∧ ((exG4.filter (fun r => r.country = "A")).map (fun r => r.co2_ma_5yr))
          = rollingMA ((exG4.filter (fun r => r.country = "A")).map (fun r => r.co2_emissions))
      ∧ (exG4.map (fun r => r.co2_ma_5yr)) = [none, none, some 6] := by
  have h : _clean_combined_data exT4 = .ok exG4 := by
    norm_num +decide [_clean_combined_data, buildGroups, survivors, exT4, exG4, toNumericCell,
      rowKey, uniqueFirst, uniqueFirstAux, sortCY, addMA, addMAGo, List.insertionSort,
      List.orderedInsert, mkGroupRow, meanOpt, cellVal, keyOfG, maOfHist, keyLe, cyLe,
      List.filterMap_cons, List.filter_cons]
  exact ⟨h, (C4_rolling_mean exT4 exG4 h).1 "A", by norm_num [exG4]⟩

/-- C5 (amended): the detector hands the regression ALL `(year, co2_ma_5yr)`
pairs of a country's filtered subset; a missing smoothed value makes the
fit raise and aborts the whole detection. Hence whenever detection
succeeds, the non-missing pairs coincide with all pairs, the reported
`growth_rate` is the OLS slope over exactly those pairs, and the reported
`p_value` field is the quantity line 107 binds to that name — the slope's
standard error from `stats.linregress` over those pairs, the true
two-sided p-value being discarded by the `[3:5]` slice. -/
theorem C5_regression_pairs : ∀ (sErr : List (ℤ × ℚ) → ℚ) (combined : List GRow) (sy : ℤ)
    (hs : List Hotspot),
    identify_hotspots sErr combined sy = some hs →
    ∀ h ∈ hs,
      h.growth_rate = olsSlope (dropPts (recentOf combined sy) h.country)
        ∧ h.p_value = sErr (dropPts (recentOf combined sy) h.country)
        ∧ dropPts (recentOf combined sy) h.country = regPts (recentOf combined sy) h.country := by
  intro sErr combined sy hs hid h hmem
  rw [identify_hotspots] at hid
  rcases hloop : hotspotLoop sErr (recentOf combined sy)
      (uniqueFirst ((recentOf combined sy).map (fun r => r.country))) with _ | cands
  · rw [hloop] at hid; exact absurd hid (by simp)
  · rw [hloop] at hid
    dsimp only at hid
    by_cases hc : cands = []
    · rw [if_pos hc] at hid; exact absurd hid (by simp)
    · rw [if_neg hc, Option.some.injEq] at hid
      have hmem2 : h ∈ cands := by
        have s1 : h ∈ (List.insertionSort grLe cands).reverse :=
          List.take_subset 3 _ (hid ▸ hmem)
        have s2 : h ∈ List.insertionSort grLe cands := List.mem_reverse.mp s1
        simpa using s2
      have h1 := hotspotLoop_eq sErr (recentOf combined sy) _ cands hloop
      rw [h1] at hmem2
      obtain ⟨c, hcf, rfl⟩ := List.mem_map.mp hmem2
      obtain ⟨hcu, hcq⟩ := List.mem_filter.mp hcf
      have hq : qualifies sErr (recentOf combined sy) c := of_decide_eq_true hcq
      have hcheck := hotspotLoop_checks sErr (recentOf combined sy) _ cands hloop c hcu hq.1
      have hdrop := dropPts_eq_regPts (recentOf combined sy) c hcheck.1
      have hcountry : (candOf sErr (recentOf combined sy) c).country = c := rfl
      rw [hcountry, hdrop]
      exact ⟨rfl, rfl, rfl⟩

/-- C5 witness: in the successful run on `exTie`, country `B`'s reported
growth rate is the OLS slope over its non-missing pairs (which are all of
its pairs) and its reported `p_value` field is the abstracted standard
error over the same pairs. -/
theorem C5_regression_pairs_witness :
    (1 : ℚ) = olsSlope (dropPts (recentOf exTie 2015) "B")
      ∧ (0 : ℚ) = zeroStat (dropPts (recentOf exTie 2015) "B")
      ∧ dropPts (recentOf exTie 2015) "B" = regPts (recentOf exTie 2015) "B" :=
  C5_regression_pairs zeroStat exTie 2015 [⟨"B", 1, 0, 15⟩, ⟨"A", 1, 0, 5⟩]
    (by
      norm_num +decide [identify_hotspots, hotspotLoop, recentOf, cdOf, exTie, mkG, uniqueFirst,
        uniqueFirstAux, hasMissingMA, allYearsEq, candOf, olsSlope, regPts, lastMA, zeroStat,
        List.insertionSort, List.orderedInsert, grLe, List.filterMap_cons, List.filter_cons,
        Function.comp])
    ⟨"B", 1, 0, 15⟩ (List.mem_cons_self _ _)

/-- C5 counterexample: on `exMissing`, country `A` has five rows in the
window but one missing smoothed value. The claim's drop-missing fit is
well defined on the four non-missing pairs (slope exactly 1, an exact fit,
so the genuine two-sided p-value — and equally the standard error the code
would gate on — is below 0.05) and would report `A`; the code's detector
instead aborts with a failure and reports nothing. -/
theorem C5_counterexample :
    identify_hotspots zeroStat exMissing 2015 = none
      ∧ specC5Qualifiers zeroStat (recentOf exMissing 2015) = [⟨"A", 1, 0, 4⟩]
      ∧ ¬ (∃ hs : List Hotspot, identify_hotspots zeroStat exMissing 2015 = some hs) := by
  have h1 : identify_hotspots zeroStat exMissing 2015 = none := by
    norm_num +decide [identify_hotspots, hotspotLoop, recentOf, cdOf, exMissing, mkG, uniqueFirst,
      uniqueFirstAux, hasMissingMA, allYearsEq, List.filter_cons]
  have h2 : specC5Qualifiers zeroStat (recentOf exMissing 2015) = [⟨"A", 1, 0, 4⟩] := by
    norm_num +decide [specC5Qualifiers, recentOf, cdOf, exMissing, mkG, uniqueFirst,
      uniqueFirstAux, candOfSpecC5, olsSlope, dropPts, zeroStat,
      List.filterMap_cons, List.filter_cons, Function.comp]
  refine ⟨h1, h2, fun hex => ?_⟩
  obtain ⟨hs, hhs⟩ := hex
  rw [h1] at hhs
  exact Option.noConfusion hhs

/-- C6 (amended): when hotspot detection fails, `main` returns early: no
flat export is produced at all. The `is_hotspot := false` default of
`prepare_tableau_data` exists for a missing hotspot list, but `main`'s
early return makes it unreachable after a detection failure. -/
theorem C6_detection_failure : ∀ (sErr : List (ℤ × ℚ) → ℚ) (sources : List Table)
    (combined : List GRow),
    load_and_clean_data sources = some combined →
    identify_hotspots sErr combined 2015 = none →
    (mainRun sErr sources).tableauExport = none
      ∧ prepare_tableau_data combined none = combined.map (fun r => (r, false)) := by
  intro sErr sources combined hload hdet
  constructor
  · rw [mainRun, hload]
    dsimp only
    rw [hdet]
  · rfl

/-- C6 witness: on the single-source run `exSrcC6`, detection fails and
the run produces no export. -/
theorem C6_detection_failure_witness :
    (mainRun zeroStat [exSrcC6]).tableauExport = none
      ∧ prepare_tableau_data exCombinedC6 none = exCombinedC6.map (fun r => (r, false)) :=
  C6_detection_failure zeroStat [exSrcC6] exCombinedC6
    (by
      norm_num +decide [load_and_clean_data, stdAll, _standardize_format, colMax, stringCells,
        numCells, _clean_combined_data, buildGroups, survivors, concatTables, concatRow,
        exSrcC6, exRow6, exCombinedC6, toNumericCell, rowKey, uniqueFirst, uniqueFirstAux, sortCY,
        addMA, addMAGo, List.insertionSort, List.orderedInsert, mkGroupRow, meanOpt, cellVal,
        keyOfG, maOfHist, List.filterMap_cons, List.filter_cons])
    rfl

/-- C6 counterexample: a run in which loading succeeded but detection
failed (no country has five observations) produces NO flat export, whereas
the claim says the export is still produced with a uniformly false
`is_hotspot` flag. -/
theorem C6_counterexample :
    load_and_clean_data [exSrcC6] = some exCombinedC6
      ∧ identify_hotspots zeroStat exCombinedC6 2015 = none
      ∧ (mainRun zeroStat [exSrcC6]).tableauExport = none
      ∧ ¬ (mainRun zeroStat [exSrcC6]).tableauExport
            = some (prepare_tableau_data exCombinedC6 none) := by
  have h1 : load_and_clean_data [exSrcC6] = some exCombinedC6 := by
    norm_num +decide [load_and_clean_data, stdAll, _standardize_format, colMax, stringCells,
      numCells, _clean_combined_data, buildGroups, survivors, concatTables, concatRow,
      exSrcC6, exRow6, exCombinedC6, toNumericCell, rowKey, uniqueFirst, uniqueFirstAux, sortCY,
      addMA, addMAGo, List.insertionSort, List.orderedInsert, mkGroupRow, meanOpt, cellVal,
      keyOfG, maOfHist, List.filterMap_cons, List.filter_cons]
  have h3 : (mainRun zeroStat [exSrcC6]).tableauExport = none := by
    rw [mainRun, h1]
    rfl
  refine ⟨h1, rfl, h3, fun h => ?_⟩
  rw [h3] at h
  exact Option.noConfusion h

/-- C7 (code defect): the cleaning stage's `to_numeric(errors='coerce')`
would indeed turn the non-parseable string into a missing value, but the
unit heuristic runs first and compares the mixed-type column maximum
against 1e3, raising `TypeError`; the whole load therefore fails on
account of the non-parseable value, against the documented coercion
intent. -/
theorem C7_nonnumeric_aborts_load :
    toNumericCell (Cell.strv "abc") = Cell.missing
      ∧ _standardize_format exC7 = .error ()
      ∧ load_and_clean_data [exC7] = none :=
  ⟨rfl, rfl, rfl⟩

/-- C8: running the clean/group/smooth step on its own output yields that
output again — the reconstructed rows all survive the filters, regroup
into singleton groups whose means reproduce the values, arrive already
sorted, and receive the identical smoothed column. -/
theorem C8_idempotent : ∀ (t : Table) (g : List GRow), _clean_combined_data t = .ok g →
    _clean_combined_data (reload g) = .ok g := by
  intro t g h
  obtain ⟨hg, -, -, -⟩ := clean_eq t g h
  obtain ⟨hkeys, hstrip⟩ := clean_ma_structure t g h
  have hnd : (g.map keyOfG).Nodup := by rw [hkeys]; exact buildGroups_keys_nodup _
  have hsort : List.Sorted keyLe (g.map keyOfG) := by
    rw [hkeys]; exact buildGroups_keys_sorted _
  have hyear := clean_year_bound t g h
  rw [_clean_combined_data]
  rw [if_neg (by simp [reload]), if_neg (by simp [reload]), if_neg (by simp [reload])]
  rw [survivors_reload g hyear, buildGroups_reload g hnd hsort, hstrip,
    sortCY_buildGroups, ← hg]

/-- C8 witness: rerunning the cleaning step on the Combined Dataset of
`exSrcC6` reproduces it exactly. -/
theorem C8_idempotent_witness :
    _clean_combined_data exSrcC6 = .ok exCombinedC6
      ∧ _clean_combined_data (reload exCombinedC6) = .ok exCombinedC6 := by
  have h : _clean_combined_data exSrcC6 = .ok exCombinedC6 := by
    norm_num +decide [_clean_combined_data, buildGroups, survivors, exSrcC6, exRow6, exCombinedC6,
      toNumericCell, rowKey, uniqueFirst, uniqueFirstAux, sortCY, addMA, addMAGo,
      List.insertionSort, List.orderedInsert, mkGroupRow, meanOpt, cellVal, keyOfG, maOfHist,
      List.filterMap_cons, List.filter_cons]
  exact ⟨h, C8_idempotent exSrcC6 exCombinedC6 h⟩

/-- C9: when no country satisfies the inclusion rule, the detector does
not succeed with an empty list: the empty candidate frame has no
`growth_rate` column, its sort raises, and `identify_hotspots` reports
failure. -/
theorem C9_no_qualifiers_failure : ∀ (sErr : List (ℤ × ℚ) → ℚ) (combined : List GRow) (sy : ℤ),
    qualifiers sErr (recentOf combined sy) = [] →
    identify_hotspots sErr combined sy = none := by
  intro sErr combined sy hq
  rw [identify_hotspots]
  rcases hloop : hotspotLoop sErr (recentOf combined sy)
      (uniqueFirst ((recentOf combined sy).map (fun r => r.country))) with _ | cands
  · rw [hloop]
  · rw [hloop]
    dsimp only
    have h1 := hotspotLoop_eq sErr (recentOf combined sy) _ cands hloop
    have h2 : cands = qualifiers sErr (recentOf combined sy) := by rw [qualifiers]; exact h1
    rw [if_pos (h2.trans hq)]

/-- C9 witness: the one-row dataset of `exSrcC6` has no qualifying country
and its detection run fails. -/
theorem C9_no_qualifiers_failure_witness :
    qualifiers zeroStat (recentOf exCombinedC6 2015) = []
      ∧ identify_hotspots zeroStat exCombinedC6 2015 = none :=
  ⟨rfl, C9_no_qualifiers_failure zeroStat exCombinedC6 2015 rfl⟩

/-- C10: when no source supplies a `co2_emissions` column or none supplies
a `co2_per_capita` column, the load stage fails (the cleaning pipeline's
column access raises `KeyError`) and nothing is written to the database. -/
theorem C10_missing_column_failure : ∀ (sErr : List (ℤ × ℚ) → ℚ) (sources : List Table),
    (sources.all (fun t => !t.hasCo2) = true ∨ sources.all (fun t => !t.hasPerCap) = true) →
    load_and_clean_data sources = none ∧ (mainRun sErr sources).dbWrite = none := by
  intro sErr sources hcase
  have hload : load_and_clean_data sources = none := by
    rw [load_and_clean_data]
    rcases hstd : stdAll sources with e | stds
    · rfl
    · dsimp only
      have hflags := stdAll_flags sources stds hstd
      have hcc : (concatTables stds).hasCo2 = stds.any (fun t => t.hasCo2) := rfl
      have hcp : (concatTables stds).hasPerCap = stds.any (fun t => t.hasPerCap) := rfl
      have herr : _clean_combined_data (concatTables stds) = .error () := by
        refine clean_error_of_flags _ ?_
        rcases hcase with hc | hc
        · refine Or.inl ?_
          rw [hcc, List.any_eq_false]
          intro t' ht'
          have hmem : (t'.hasCo2, t'.hasPerCap) ∈ stds.map (fun t => (t.hasCo2, t.hasPerCap)) :=
            List.mem_map_of_mem _ ht'
          rw [hflags] at hmem
          obtain ⟨s, hs, heq⟩ := List.mem_map.mp hmem
          have hall := List.all_eq_true.mp hc s hs
          have hs2 : s.hasCo2 = false := by simpa using hall
          have hfst : t'.hasCo2 = s.hasCo2 := by
            have := congrArg Prod.fst heq
            simpa using this.symm
          simp [hfst, hs2]
        · refine Or.inr ?_
          rw [hcp, List.any_eq_false]
          intro t' ht'
          have hmem : (t'.hasCo2, t'.hasPerCap) ∈ stds.map (fun t => (t.hasCo2, t.hasPerCap)) :=
            List.mem_map_of_mem _ ht'
          rw [hflags] at hmem
          obtain ⟨s, hs, heq⟩ := List.mem_map.mp hmem
          have hall := List.all_eq_true.mp hc s hs
          have hs2 : s.hasPerCap = false := by simpa using hall
          have hsnd : t'.hasPerCap = s.hasPerCap := by
            have := congrArg Prod.snd heq
            simpa using this.symm
          simp [hsnd, hs2]
      rw [herr]
  refine ⟨hload, ?_⟩
  rw [mainRun, hload]

/-- C10 witness: with the single source `exC10`, which lacks the emissions
column, the load fails and no database write happens. -/
theorem C10_missing_column_failure_witness :
    load_and_clean_data [exC10] = none ∧ (mainRun zeroStat [exC10]).dbWrite = none :=
  C10_missing_column_failure zeroStat [exC10] (Or.inl rfl)
